import Mathlib

/-!
Shallow embedding of the FalseSkill library (Glicko-2 rating system,
`src/falseskill.ts` and its transpiled AMD module `src/unnamed/part_001`).

Modelling conventions:
* JS `number` is modelled as `ℝ`; `Math.exp/log/sqrt/pow` become
  `Real.exp/log/sqrt/rpow`.
* Functions that can `throw` return `Except Err _`; the error constructors
  stand for the thrown `Error(...)` messages of the source.
* The two unbounded `while` loops inside `calculateRating` (the bracket
  search for `B` and the Illinois regula-falsi iteration) are embedded with
  an explicit fuel parameter; `none` means the loop did not reach its exit
  condition within the given fuel.
* The in-place mutation of `updateRating` / `updateRatings` is embedded by
  explicit state passing over a store `ℕ → PlayerRating`; JS object identity
  is modelled by the store index, and `deriveMatches` consequently works on
  player indices.
* The module-wide mutable tunables (`Tau`, `InitialRating`,
  `InitialDeviation`, `InitialVolatility`) are passed as an explicit
  `Config` value; `defaultConfig` holds the initial values of the source.
-/

namespace FalseSkill

/-- The four process-wide tunables of the library (`Tau`, `InitialRating`,
`InitialDeviation`, `InitialVolatility` in `src/falseskill.ts` lines 17-23). -/
structure Config where
  Tau : ℝ
  InitialRating : ℝ
  InitialDeviation : ℝ
  InitialVolatility : ℝ

/-- The default values of the tunables (`Tau = 0.75`, `InitialRating = 1500`,
`InitialDeviation = 350`, `InitialVolatility = 0.06`). -/
noncomputable def defaultConfig : Config :=
  ⟨0.75, 1500, 350, 0.06⟩

/-- Assignment to the `Tau` tunable (`falseskill.Tau = t`). -/
def setTau (c : Config) (t : ℝ) : Config :=
  { c with Tau := t }

/-- Outcome constant: `Loss = 0.0`. -/
noncomputable def Loss : ℝ := 0.0

/-- Outcome constant: `Draw = 0.5`. -/
noncomputable def Draw : ℝ := 0.5

/-- Outcome constant: `Win = 1.0`. -/
noncomputable def Win : ℝ := 1.0

/-- `OpponentRating` interface: rating µ and deviation φ. -/
structure OpponentRating where
  rating : ℝ
  deviation : ℝ

/-- `PlayerRating` interface: rating µ, deviation φ and volatility σ. -/
structure PlayerRating where
  rating : ℝ
  deviation : ℝ
  volatility : ℝ

/-- The view of a `PlayerRating` as an `OpponentRating` (in JS this is the
same object, used through the narrower interface). -/
def toOpponent (p : PlayerRating) : OpponentRating :=
  ⟨p.rating, p.deviation⟩

/-- The thrown errors of the library, one constructor per distinct
`throw Error(...)` message in the source. -/
inductive Err where
  | invalidArgument
  | duplicatePlayer
  | playerNotFound
deriving DecidableEq

/-- `newRating()`: a fresh rating from the configured initial values. -/
noncomputable def newRating (cfg : Config) : PlayerRating :=
  ⟨cfg.InitialRating, cfg.InitialDeviation, cfg.InitialVolatility⟩

/-- `Math_sq(x) = x * x` (utility of the source). -/
def Math_sq (x : ℝ) : ℝ := x * x

/-- `PiSq = Math.PI * Math.PI`. -/
noncomputable def PiSq : ℝ := Real.pi * Real.pi

/-- `toGlicko2Scale`: µ = (r − 1500)/173.7178, φ = RD/173.7178, volatility
unchanged. -/
noncomputable def toGlicko2Scale (r : PlayerRating) : PlayerRating :=
  ⟨(r.rating - 1500.0) / 173.7178, r.deviation / 173.7178, r.volatility⟩

/-- `toGlicko2Scale` applied to a bare opponent rating (the JS function is
duck-typed; the volatility field is absent/ignored). -/
noncomputable def toGlicko2ScaleOpp (r : OpponentRating) : OpponentRating :=
  ⟨(r.rating - 1500.0) / 173.7178, r.deviation / 173.7178⟩

/-- `toGlicko1Scale`: r = 173.7178µ + 1500, RD = 173.7178φ, volatility
unchanged. -/
noncomputable def toGlicko1Scale (r : PlayerRating) : PlayerRating :=
  ⟨173.7178 * r.rating + 1500.0, 173.7178 * r.deviation, r.volatility⟩

/-- `calculateRatingDidNotCompete(player)`: convert to the internal scale,
inflate the deviation to `sqrt(φ² + σ²)`, convert back. -/
noncomputable def calculateRatingDidNotCompete (player : PlayerRating) : PlayerRating :=
  let p := toGlicko2Scale player
  toGlicko1Scale ⟨p.rating, Real.sqrt (Math_sq p.deviation + Math_sq p.volatility), p.volatility⟩

/-- `copyRating(from, to)`: the value held by `to` after all three fields
were overwritten from `from`. -/
def copyRating (src dst : PlayerRating) : PlayerRating :=
  ⟨src.rating, src.deviation, src.volatility⟩

/-- `g(φ) = 1 / sqrt(1 + 3φ²/π²)` (local helper of `calculateRating`). -/
noncomputable def g (deviation : ℝ) : ℝ :=
  1.0 / Real.sqrt (1.0 + 3.0 * Math_sq deviation / PiSq)

/-- `E(µ, µj, φj) = 1 / (1 + exp(−g(φj)·(µ − µj)))` (local helper of
`calculateRating`). -/
noncomputable def E (rating opponentRating opponentDeviation : ℝ) : ℝ :=
  1.0 / (1.0 + Real.exp (-(g opponentDeviation) * (rating - opponentRating)))

/-- The volatility function `f` of Step 5 of `calculateRating`:
`f(x) = eˣ(Δ² − φ² − v − eˣ) / (2(φ² + v + eˣ))² − (x − a)/τ²`.
`tauSq` is the `TauSq` value the source uses; in `src/falseskill.ts` it is
recomputed as `Tau * Tau` inside each call, while the transpiled module
`src/unnamed/part_001` computes it once at module load. -/
noncomputable def glickoF (tauSq DSq deviationSq v a x : ℝ) : ℝ :=
  (Real.exp x * (DSq - deviationSq - v - Real.exp x)) /
      Math_sq (2.0 * (deviationSq + v + Real.exp x)) -
    (x - a) / tauSq

/-- The bracket search of Step 5 (`let k = 1; while (f(a - k*Tau) < 0.0)
k = k + 1; B = a - k*Tau`), with fuel: `some k` is the exit value of `k`,
`none` means the loop was still running when the fuel ran out. -/
noncomputable def bracketSearch (f : ℝ → ℝ) (a tau : ℝ) : ℕ → ℕ → Option ℕ
  | 0, k => if f (a - (k : ℝ) * tau) < 0.0 then none else some k
  | fuel + 1, k =>
    if f (a - (k : ℝ) * tau) < 0.0 then bracketSearch f a tau fuel (k + 1) else some k

/-- The Illinois regula-falsi loop of Step 5 (`while (Math.abs(B - A) >
0.000001) ...`), with fuel: `some A` is the final value of `A`, `none`
means the loop was still running when the fuel ran out. -/
noncomputable def illinois (f : ℝ → ℝ) : ℕ → ℝ → ℝ → ℝ → ℝ → Option ℝ
  | 0, A, B, _, _ => if |B - A| > 0.000001 then none else some A
  | fuel + 1, A, B, fA, fB =>
    if |B - A| > 0.000001 then
      let C := A + (A - B) * fA / (fB - fA)
      let fC := f C
      if fC * fB < 0.0 then illinois f fuel B C fB fC
      else illinois f fuel A C (fA / 2.0) fC
    else some A

/-- `calculateRating(player, opponents, outcomes)` of `src/falseskill.ts`.
`.error .invalidArgument` is the thrown length-mismatch error; `.ok none`
means one of the two solver loops failed to exit within `fuel` iterations
(the source would loop forever at that point). -/
noncomputable def calculateRating (cfg : Config) (fuel : ℕ) (player : PlayerRating)
    (opponents : List OpponentRating) (outcomes : List ℝ) :
    Except Err (Option PlayerRating) :=
  if opponents.length ≠ outcomes.length then .error .invalidArgument
  else if opponents.length = 0 then .ok (some (calculateRatingDidNotCompete player))
  else
    let p := toGlicko2Scale player
    let opps := opponents.map toGlicko2ScaleOpp
    let vInv := (opps.map fun o =>
      Math_sq (g o.deviation) * E p.rating o.rating o.deviation *
        (1.0 - E p.rating o.rating o.deviation)).sum
    let v := 1.0 / vInv
    let DSum := ((opps.zip outcomes).map fun oo =>
      g oo.1.deviation * (oo.2 - E p.rating oo.1.rating oo.1.deviation)).sum
    let D := v * DSum
    let a := Real.log (Math_sq p.volatility)
    let deviationSq := Math_sq p.deviation
    let DSq := Math_sq D
    let fc := glickoF (cfg.Tau * cfg.Tau) DSq deviationSq v a
    let Bopt := if DSq > deviationSq + v then some (Real.log (DSq - deviationSq - v))
      else (bracketSearch fc a cfg.Tau fuel 1).map fun k => a - (k : ℝ) * cfg.Tau
    match Bopt with
    | none => .ok none
    | some B =>
      match illinois fc fuel a B (fc a) (fc B) with
      | none => .ok none
      | some A =>
        let newVolatility := Real.exp (A / 2.0)
        let preRatingDeviation := Real.sqrt (deviationSq + Math_sq newVolatility)
        let newDeviation := 1.0 / Real.sqrt (1.0 / Math_sq preRatingDeviation + 1.0 / v)
        let newRating := p.rating + Math_sq newDeviation * DSum
        .ok (some (toGlicko1Scale ⟨newRating, newDeviation, newVolatility⟩))

/-- `updateRating(player, opponents, outcomes)` as a value computation:
`copyRating(calculateRating(player, opponents, outcomes), player)`.
On `.error` the exception propagates before `copyRating` runs. -/
noncomputable def updateRating (cfg : Config) (fuel : ℕ) (player : PlayerRating)
    (opponents : List OpponentRating) (outcomes : List ℝ) :
    Except Err (Option PlayerRating) :=
  match calculateRating cfg fuel player opponents outcomes with
  | .error e => .error e
  | .ok none => .ok none
  | .ok (some r) => .ok (some (copyRating r player))

/-- The mutable heap of player records: JS object identity is modelled by
the index. -/
abbrev Store : Type := ℕ → PlayerRating

/-- A `Match` whose `player` and `opponents` are references into a `Store`
(the `Match` of the source holds the player objects themselves). -/
structure MatchRef where
  player : ℕ
  opponents : List ℕ
  outcomes : List ℝ

/-- One in-place `updateRating` call on the store: the player record and the
opponent records are read from the current store when the call is made, and
on success the record of the player is overwritten. -/
noncomputable def updateRatingStore (cfg : Config) (fuel : ℕ) (s : Store) (m : MatchRef) :
    Except Err (Option Store) :=
  match updateRating cfg fuel (s m.player) (m.opponents.map fun i => toOpponent (s i))
      m.outcomes with
  | .error e => .error e
  | .ok none => .ok none
  | .ok (some r) => .ok (some fun j => if j = m.player then r else s j)

/-- The store of the caller after an `updateRating` call that may throw: the
exception propagates before `copyRating` runs, so on failure every field of
every record is left as it was. -/
noncomputable def runUpdateRating (cfg : Config) (fuel : ℕ) (s : Store) (pid : ℕ)
    (opponents : List OpponentRating) (outcomes : List ℝ) : Store :=
  match updateRating cfg fuel (s pid) opponents outcomes with
  | .ok (some r) => fun j => if j = pid then r else s j
  | _ => s

/-- `updateRatings(matches)`: applies `updateRating` to each match of the
batch in list order, threading the mutated store. -/
noncomputable def updateRatings (cfg : Config) (fuel : ℕ) (s : Store) :
    List MatchRef → Except Err (Option Store)
  | [] => .ok (some s)
  | m :: ms =>
    match updateRatingStore cfg fuel s m with
    | .error e => .error e
    | .ok none => .ok none
    | .ok (some s1) => updateRatings cfg fuel s1 ms

/-- The indexing pass of `deriveMatches` over one rank-group: each player is
checked against all previously traversed players (`playersAlreadyIndexed`)
and appended to the accumulator with its rank.
`.error .duplicatePlayer` is the thrown error
`players cannot reach multiple ranks at once`. -/
def indexPlayersGroup (rank : ℕ) : List ℕ → List (ℕ × ℕ) → Except Err (List (ℕ × ℕ))
  | [], acc => .ok acc
  | p :: ps, acc =>
    if p ∈ acc.map Prod.snd then .error .duplicatePlayer
    else indexPlayersGroup rank ps (acc ++ [(rank, p)])

/-- The indexing pass of `deriveMatches` over all rank-groups (the outer
`rankings.forEach((players, rank) => ...)`). -/
def indexPlayers : List (List ℕ) → ℕ → List (ℕ × ℕ) → Except Err (List (ℕ × ℕ))
  | [], _, acc => .ok acc
  | grp :: grps, rank, acc =>
    match indexPlayersGroup rank grp acc with
    | .error e => .error e
    | .ok acc1 => indexPlayers grps (rank + 1) acc1

/-- The match built for one indexed player: every other indexed player is an
opponent, with outcome Win/Loss/Draw by rank comparison. -/
noncomputable def buildMatch (indexedPlayers : List (ℕ × ℕ)) (ip : ℕ × ℕ) : MatchRef :=
  let others := indexedPlayers.filter fun io => io ≠ ip
  ⟨ip.2, others.map Prod.snd,
    others.map fun io => if ip.1 < io.1 then Win else if ip.1 > io.1 then Loss else Draw⟩

/-- `deriveMatches(rankings, filterBy?)`: index all players (throwing
`.duplicatePlayer` on a repeated player), check the filter
(`.playerNotFound` is the thrown error
`there is no player matching the provided filter`), and build one match per
player (or only for the filtered player). -/
noncomputable def deriveMatches (rankings : List (List ℕ)) (filterBy : Option ℕ) :
    Except Err (List MatchRef) :=
  match indexPlayers rankings 0 [] with
  | .error e => .error e
  | .ok ips =>
    match filterBy with
    | none => .ok (ips.map (buildMatch ips))
    | some fb =>
      match ips.find? fun ip => ip.2 = fb with
      | none => .error .playerNotFound
      | some ip => .ok [buildMatch ips ip]

/-- The `MatchQuality` result structure. -/
structure MatchQuality where
  qualities : List ℝ
  min : ℝ
  max : ℝ
  avg : ℝ
  med : ℝ
  str : ℝ

/-- `calculateMatchQualityG1(player, opponent)`: Glicko-1 expected score
with the configured `InitialDeviation` as scaling constant, folded into a
[0, 1] quality. -/
noncomputable def calculateMatchQualityG1 (cfg : Config) (player : PlayerRating)
    (opponent : OpponentRating) : ℝ :=
  let expectedScore :=
    1.0 / (1.0 + (10.0 : ℝ) ^ ((opponent.rating - player.rating) / (2.0 * cfg.InitialDeviation)))
  (0.5 - |expectedScore - 0.5|) / 0.5

/-- The accumulator of the `opponents.forEach` loop of
`calculateMatchQuality`, with the initial values of the source
`min = 1.0, max = 0.0, sum = 0.0, strongestOpponent = null,
strongest = 0.0`. -/
structure MQAcc where
  qualities : List ℝ
  min : ℝ
  max : ℝ
  sum : ℝ
  strongestOpponent : Option OpponentRating
  strongest : ℝ

/-- One iteration of the `opponents.forEach` loop of
`calculateMatchQuality`. -/
noncomputable def mqStep (cfg : Config) (player : PlayerRating) (acc : MQAcc)
    (opponent : OpponentRating) : MQAcc :=
  let quality := calculateMatchQualityG1 cfg player opponent
  let newMin := if quality < acc.min then quality else acc.min
  let newMax := if quality > acc.max then quality else acc.max
  let strong : Option OpponentRating × ℝ :=
    match acc.strongestOpponent with
    | none => (some opponent, quality)
    | some so =>
      if opponent.rating > so.rating then (some opponent, quality)
      else (some so, acc.strongest)
  ⟨acc.qualities ++ [quality], newMin, newMax, acc.sum + quality, strong.1, strong.2⟩

/-- JS array indexing `xs[i]` as used by the median computation: an index
outside the array yields `undefined` (which behaves as NaN in the ensuing
arithmetic); the embedding returns the junk value 0 there. -/
def nthJs (xs : List ℝ) (i : ℤ) : ℝ :=
  if h : 0 ≤ i ∧ i.toNat < xs.length then xs.get ⟨i.toNat, h.2⟩ else 0

/-- `calculateMatchQuality(player, opponents)`. The function never throws.
`sortFn` stands for `Array.prototype.sort` with no comparator, which
compares the string forms of the IEEE-754 doubles; it is kept abstract here
because that string order is not expressible over `ℝ`. No field except
`med` depends on it. -/
noncomputable def calculateMatchQuality (sortFn : List ℝ → List ℝ) (cfg : Config)
    (player : PlayerRating) (opponents : List OpponentRating) : MatchQuality :=
  let acc := opponents.foldl (mqStep cfg player) ⟨[], 1.0, 0.0, 0.0, none, 0.0⟩
  let sortedQualities := sortFn acc.qualities
  let half := sortedQualities.length / 2
  let median :=
    if sortedQualities.length % 2 = 1 then nthJs sortedQualities (half : ℤ)
    else (nthJs sortedQualities ((half : ℤ) - 1) + nthJs sortedQualities (half : ℤ)) / 2.0
  ⟨acc.qualities, acc.min, acc.max, acc.sum / (opponents.length : ℝ), median, acc.strongest⟩

/-- The module-level `var TauSq = exports.Tau * exports.Tau` of the
transpiled AMD module (`src/unnamed/part_001` line 38), evaluated once with
the configuration as it is at module load time. -/
noncomputable def moduleTauSqJS (loadCfg : Config) : ℝ :=
  loadCfg.Tau * loadCfg.Tau

/-- The volatility function `f` as the transpiled module evaluates it: its
`τ²` comes from the load-time `TauSq`, regardless of the current
configuration `cfg` (which the bracket-search step spacing still reads). -/
noncomputable def fJS (loadCfg cfg : Config) (DSq deviationSq v a : ℝ) : ℝ → ℝ :=
  glickoF (moduleTauSqJS loadCfg) DSq deviationSq v a

/-- The volatility function `f` as `src/falseskill.ts` evaluates it: `TauSq`
is recomputed from the current configuration inside each
`calculateRating` call (this is the `fc` of `calculateRating` above). -/
noncomputable def fTS (cfg : Config) (DSq deviationSq v a : ℝ) : ℝ → ℝ :=
  glickoF (cfg.Tau * cfg.Tau) DSq deviationSq v a

/-- Demonstration fixture: a player record with rating 1500, deviation
173.7178 (one internal-scale unit) and volatility 1. -/
noncomputable def demoPlayer : PlayerRating := ⟨1500, 173.7178, 1⟩

/-- Demonstration store: every index holds `demoPlayer`. -/
noncomputable def demoStore : Store := fun _ => demoPlayer

/-- Demonstration batch, first match: player 0 with no games (a
deviation-only update, as `updateRating(p, [], [])` performs). -/
def demoMatch0 : MatchRef := ⟨0, [], []⟩

/-- Demonstration batch, second match: player 1 against opponent 0 — the
same record that the in-place update of the first match overwrites. -/
noncomputable def demoMatch1 : MatchRef := ⟨1, [0], [Win]⟩

/-! Theorems. -/

/-- The constant 173.7178 is nonzero (shared helper). -/
theorem scaleConst_ne_zero : (173.7178 : ℝ) ≠ 0 := by norm_num

/-- C7: For every rating triple `r`, `toGlicko1Scale (toGlicko2Scale r)`
reproduces `r.rating` and `r.deviation` within tolerance 1e-9 (over the
reals the round trip is exact), and both conversions leave the volatility
field exactly unchanged. -/
theorem C7_scale_round_trip (r : PlayerRating) :
    |(toGlicko1Scale (toGlicko2Scale r)).rating - r.rating| ≤ 1e-9 ∧
    |(toGlicko1Scale (toGlicko2Scale r)).deviation - r.deviation| ≤ 1e-9 ∧
    (toGlicko2Scale r).volatility = r.volatility ∧
    (toGlicko1Scale r).volatility = r.volatility := by
  have h1 : (toGlicko1Scale (toGlicko2Scale r)).rating = r.rating := by
    simp only [toGlicko1Scale, toGlicko2Scale]
    field_simp
  have h2 : (toGlicko1Scale (toGlicko2Scale r)).deviation = r.deviation := by
    simp only [toGlicko1Scale, toGlicko2Scale]
    field_simp
  refine ⟨?_, ?_, rfl, rfl⟩
  · rw [h1, sub_self, abs_zero]; norm_num
  · rw [h2, sub_self, abs_zero]; norm_num

/-- C8: For every player `p` (and any configuration and fuel),
`calculateRating p [] []` returns exactly `calculateRatingDidNotCompete p`:
the deviation is inflated to `sqrt(φ² + σ²)` on the internal scale while
rating and volatility are unchanged. -/
theorem C8_no_opponents_shortcut (cfg : Config) (fuel : ℕ) (p : PlayerRating) :
    calculateRating cfg fuel p [] [] = .ok (some (calculateRatingDidNotCompete p)) ∧
    (calculateRatingDidNotCompete p).rating = p.rating ∧
    (calculateRatingDidNotCompete p).volatility = p.volatility ∧
    (calculateRatingDidNotCompete p).deviation =
      173.7178 * Real.sqrt (Math_sq (p.deviation / 173.7178) + Math_sq p.volatility) := by
  refine ⟨rfl, ?_, rfl, rfl⟩
  simp only [calculateRatingDidNotCompete, toGlicko1Scale, toGlicko2Scale]
  field_simp

/-- C6: With mismatched list lengths, `calculateRating` (hence
`updateRating`) fails with the invalid-argument error, and the store after
the failed in-place `updateRating` call is entirely unchanged. -/
theorem C6_mismatch_error (cfg : Config) (fuel : ℕ) (s : Store) (pid : ℕ)
    (opponents : List OpponentRating) (outcomes : List ℝ)
    (h : opponents.length ≠ outcomes.length) :
    calculateRating cfg fuel (s pid) opponents outcomes = .error .invalidArgument ∧
    runUpdateRating cfg fuel s pid opponents outcomes = s := by
  have h1 : calculateRating cfg fuel (s pid) opponents outcomes = .error .invalidArgument := by
    unfold calculateRating
    rw [if_pos h]
  refine ⟨h1, ?_⟩
  unfold runUpdateRating updateRating
  rw [h1]

/-- C6 witness: at the concrete input of one opponent and zero outcomes the
lengths differ, the call fails with the invalid-argument error, and the
store is unchanged. -/
theorem C6_mismatch_error_witness :
    ([(⟨1500, 350⟩ : OpponentRating)].length ≠ ([] : List ℝ).length) ∧
    calculateRating defaultConfig 0 ((fun _ => (⟨1500, 350, 0.06⟩ : PlayerRating)) 0)
      [⟨1500, 350⟩] [] = .error .invalidArgument ∧
    runUpdateRating defaultConfig 0 (fun _ => (⟨1500, 350, 0.06⟩ : PlayerRating)) 0
      [⟨1500, 350⟩] [] = (fun _ => (⟨1500, 350, 0.06⟩ : PlayerRating)) := by
  have h : ([(⟨1500, 350⟩ : OpponentRating)].length ≠ ([] : List ℝ).length) := by decide
  obtain ⟨h1, h2⟩ := C6_mismatch_error defaultConfig 0
    (fun _ => (⟨1500, 350, 0.06⟩ : PlayerRating)) 0 [⟨1500, 350⟩] [] h
  exact ⟨h, h1, h2⟩

/-- Unfolding lemma for `bracketSearch` at fuel 0 (shared helper). -/
theorem bracketSearch_zero (f : ℝ → ℝ) (a tau : ℝ) (k : ℕ) :
    bracketSearch f a tau 0 k =
      if f (a - (k : ℝ) * tau) < 0.0 then none else some k := rfl

/-- Unfolding lemma for `bracketSearch` at positive fuel (shared helper). -/
theorem bracketSearch_succ (f : ℝ → ℝ) (a tau : ℝ) (fuel k : ℕ) :
    bracketSearch f a tau (fuel + 1) k =
      if f (a - (k : ℝ) * tau) < 0.0 then bracketSearch f a tau fuel (k + 1)
      else some k := rfl

/-- Loop invariant of the bracket search (shared helper): if the loop exits
with value `k` starting from `k0`, then `f(a − k·τ)` is not negative and
`f(a − j·τ)` is negative for every `j` from `k0` up to `k`. -/
theorem bracketSearch_spec (f : ℝ → ℝ) (a tau : ℝ) :
    ∀ fuel k0 k : ℕ, bracketSearch f a tau fuel k0 = some k →
      ¬ f (a - (k : ℝ) * tau) < 0.0 ∧
      ∀ j : ℕ, k0 ≤ j → j < k → f (a - (j : ℝ) * tau) < 0.0 := by
  intro fuel
  induction fuel with
  | zero =>
    intro k0 k h
    rw [bracketSearch_zero] at h
    by_cases hc : f (a - (k0 : ℝ) * tau) < 0.0
    · rw [if_pos hc] at h
      exact absurd h (by simp)
    · rw [if_neg hc] at h
      have hk : k0 = k := Option.some.inj h
      subst hk
      exact ⟨hc, fun j h1 h2 => absurd (lt_of_le_of_lt h1 h2) (lt_irrefl _)⟩
  | succ n ih =>
    intro k0 k h
    rw [bracketSearch_succ] at h
    by_cases hc : f (a - (k0 : ℝ) * tau) < 0.0
    · rw [if_pos hc] at h
      obtain ⟨h1, h2⟩ := ih (k0 + 1) k h
      refine ⟨h1, fun j hj1 hj2 => ?_⟩
      rcases Nat.eq_or_lt_of_le hj1 with heq | hlt
      · rw [← heq]
        exact hc
      · exact h2 j hlt hj2
    · rw [if_neg hc] at h
      have hk : k0 = k := Option.some.inj h
      subst hk
      exact ⟨hc, fun j h1 h2 => absurd (lt_of_le_of_lt h1 h2) (lt_irrefl _)⟩

/-- At the Volatility Solver instance Δ = 0, φ = 1, v = 1, σ = 1
(so a = ln(1²) = 0) and τ = 1 (so τ² = 1), the value `f(a − 1·τ)` is not
negative (shared helper). -/
theorem glickoF_demo_nonneg : ¬ glickoF 1 0 1 1 0 (-1) < 0.0 := by
  simp only [glickoF, Math_sq]
  push_neg
  have hu : (0 : ℝ) < Real.exp (-1) := Real.exp_pos _
  have hd : (0 : ℝ) <
      2.0 * (1 + 1 + Real.exp (-1)) * (2.0 * (1 + 1 + Real.exp (-1))) := by positivity
  have key : (-1 : ℝ) ≤ Real.exp (-1) * (0 - 1 - 1 - Real.exp (-1)) /
      (2.0 * (1 + 1 + Real.exp (-1)) * (2.0 * (1 + 1 + Real.exp (-1)))) := by
    rw [le_div_iff₀ hd]
    nlinarith [hu]
  have he : ((-1 : ℝ) - 0) / 1 = -1 := by norm_num
  linarith [key]

/-- At the same solver instance the bracket search exits immediately with
k = 1 (shared helper). -/
theorem bracketSearch_demo :
    bracketSearch (glickoF 1 0 1 1 0) 0 1 1 1 = some 1 := by
  have hc : ¬ glickoF 1 0 1 1 0 ((0 : ℝ) - ((1 : ℕ) : ℝ) * 1) < 0.0 := by
    have hx : (0 : ℝ) - ((1 : ℕ) : ℝ) * 1 = -1 := by push_cast; ring
    rw [hx]
    exact glickoF_demo_nonneg
  show bracketSearch (glickoF 1 0 1 1 0) 0 1 (0 + 1) 1 = some 1
  rw [bracketSearch_succ, if_neg hc]

/-- C1 counterexample: at the solver instance Δ = 0, φ = 1, v = 1, σ = 1
(a = ln(1²) = 0), τ = 1, the case Δ² ≤ φ² + v applies, the bracket
search sets B = a − 1·τ, yet f(a − 1·τ) is NOT negative — so B is not
"a − k·τ for the smallest k ≥ 1 with f(a − k·τ) < 0" as the claim states
(the loop stops at the first k whose f-value is non-negative). -/
theorem C1_counterexample :
    (Math_sq 0 ≤ Math_sq 1 + 1) ∧
    bracketSearch (glickoF 1 0 1 1 0) 0 1 1 1 = some 1 ∧
    ¬ glickoF 1 0 1 1 0 (0 - (1 : ℝ) * 1) < 0.0 := by
  refine ⟨by norm_num [Math_sq], bracketSearch_demo, ?_⟩
  have hx : (0 : ℝ) - (1 : ℝ) * 1 = -1 := by norm_num
  rw [hx]
  exact glickoF_demo_nonneg

/-- C1 amended: when Δ² ≤ φ² + v, the bracket endpoint B is set to a − k·τ
for the smallest integer k ≥ 1 such that f(a − k·τ) ≥ 0: the search keeps
incrementing k while f(a − k·τ) < 0 and stops at the first non-negative
value. -/
theorem C1_amended (tauSq DSq deviationSq v a tau : ℝ) (fuel k : ℕ)
    (hcase : DSq ≤ deviationSq + v)
    (hrun : bracketSearch (glickoF tauSq DSq deviationSq v a) a tau fuel 1 = some k) :
    ¬ glickoF tauSq DSq deviationSq v a (a - (k : ℝ) * tau) < 0.0 ∧
    ∀ j : ℕ, 1 ≤ j → j < k →
      glickoF tauSq DSq deviationSq v a (a - (j : ℝ) * tau) < 0.0 :=
  bracketSearch_spec _ a tau fuel 1 k hrun

/-- C1 amended, witness: the amended statement applied at the concrete
solver instance Δ² = 0 ≤ 1 + 1 = φ² + v, τ = 1, σ = 1, where the search
exits with k = 1. -/
theorem C1_amended_witness :
    ¬ glickoF 1 0 1 1 0 (0 - ((1 : ℕ) : ℝ) * 1) < 0.0 ∧
    ∀ j : ℕ, 1 ≤ j → j < 1 → glickoF 1 0 1 1 0 (0 - (j : ℝ) * 1) < 0.0 :=
  C1_amended 1 0 1 1 0 1 1 1 (by norm_num) bracketSearch_demo

/-- C3 counterexample: `calculateMatchQuality` invoked with an empty
opponents list does NOT fail — it returns a result structure (for any sort
model): qualities = [], min = 1.0, max = 0.0, str = 0.0. The embedding is a
total function because the source contains no throw on this path; there is
no `EmptyOpponentSet` error anywhere in the library. -/
theorem C3_counterexample :
    (calculateMatchQuality id defaultConfig ⟨1500, 350, 0.06⟩ []).qualities = [] ∧
    (calculateMatchQuality id defaultConfig ⟨1500, 350, 0.06⟩ []).min = 1.0 ∧
    (calculateMatchQuality id defaultConfig ⟨1500, 350, 0.06⟩ []).max = 0.0 ∧
    (calculateMatchQuality id defaultConfig ⟨1500, 350, 0.06⟩ []).str = 0.0 :=
  ⟨rfl, rfl, rfl, rfl⟩

/-- C3 amended: `calculateMatchQuality` with an empty opponents list does
not fail; it returns a `MatchQuality` structure whose qualities list is
empty, whose min is the initial 1.0, whose max and str are the initial 0.0
(its avg and med are the NaN junk of a division by zero and an
out-of-range index in the source). This holds for every configuration,
player and sort model. -/
theorem C3_amended (sortFn : List ℝ → List ℝ) (cfg : Config) (p : PlayerRating) :
    (calculateMatchQuality sortFn cfg p []).qualities = [] ∧
    (calculateMatchQuality sortFn cfg p []).min = 1.0 ∧
    (calculateMatchQuality sortFn cfg p []).max = 0.0 ∧
    (calculateMatchQuality sortFn cfg p []).str = 0.0 :=
  ⟨rfl, rfl, rfl, rfl⟩

/-- C5: evaluation of the stale-τ divergence of the transpiled module
(`src/unnamed/part_001`). After the module is loaded with the default
configuration (Tau = 0.75) and Tau is then set to 1.5, the stale module
volatility function `fJS` (whose `TauSq` was captured at load time, line 38)
ignores the current configuration entirely, and at the solver instance
Δ² = 0, φ² = 1, v = 1, a = 0 it differs at x = 1 from the function `fTS`
that `src/falseskill.ts` evaluates with the new τ — so the claimed
"the volatility solve uses the new τ" fails for the shipped module. -/
theorem C5_module_tau_stale :
    (∀ cfg : Config, fJS defaultConfig cfg 0 1 1 0 =
      fJS defaultConfig (setTau defaultConfig 1.5) 0 1 1 0) ∧
    fJS defaultConfig (setTau defaultConfig 1.5) 0 1 1 0 1 ≠
      fTS (setTau defaultConfig 1.5) 0 1 1 0 1 := by
  constructor
  · intro cfg
    rfl
  · simp only [fJS, fTS, moduleTauSqJS, setTau, defaultConfig, glickoF]
    intro h
    have h2 : ((1 : ℝ) - 0) / (0.75 * 0.75) = (1 - 0) / (1.5 * 1.5) := by linarith [h]
    norm_num at h2

/-- C4: evaluation of the batch-aliasing defect of `updateRatings`. In the
two-match batch (player 0 with no games; player 1 against opponent 0),
processing the batch in list order first overwrites the record of player 0
and then hands the second match a store in which the deviation of player 0
differs from its pre-batch value — so the opponent rating observed by the
computation of the second match IS affected by the earlier update, contrary to
the claim. -/
theorem C4_batch_aliasing :
    ∃ s1 : Store,
      updateRatingStore defaultConfig 0 demoStore demoMatch0 = .ok (some s1) ∧
      updateRatings defaultConfig 0 demoStore [demoMatch0, demoMatch1] =
        updateRatings defaultConfig 0 s1 [demoMatch1] ∧
      (s1 0).deviation ≠ (demoStore 0).deviation := by
  refine ⟨fun j => if j = 0 then
      copyRating (calculateRatingDidNotCompete demoPlayer) demoPlayer
    else demoStore j, rfl, rfl, ?_⟩
  simp only [demoStore, demoPlayer, copyRating, calculateRatingDidNotCompete,
    toGlicko1Scale, toGlicko2Scale, Math_sq, if_pos]
  have hq : (173.7178 : ℝ) / 173.7178 = 1 := div_self scaleConst_ne_zero
  rw [hq]
  norm_num

/-- Shared helper: the per-group indexing pass throws the duplicate-player
error as soon as the accumulated players plus the group contain a repeat. -/
theorem indexPlayersGroup_error (rank : ℕ) :
    ∀ (grp : List ℕ) (acc : List (ℕ × ℕ)),
      (acc.map Prod.snd).Nodup → ¬ (acc.map Prod.snd ++ grp).Nodup →
      indexPlayersGroup rank grp acc = .error .duplicatePlayer := by
  intro grp
  induction grp with
  | nil =>
    intro acc h1 h2
    rw [List.append_nil] at h2
    exact absurd h1 h2
  | cons p ps ih =>
    intro acc h1 h2
    by_cases hp : p ∈ acc.map Prod.snd
    · simp only [indexPlayersGroup]
      rw [if_pos hp]
    · simp only [indexPlayersGroup]
      rw [if_neg hp]
      apply ih
      · simp only [List.map_append, List.map_cons, List.map_nil]
        rw [List.nodup_append]
        refine ⟨h1, List.nodup_singleton p, ?_⟩
        intro x hx hx2
        simp only [List.mem_singleton] at hx2
        subst hx2
        exact hp hx
      · intro hno
        apply h2
        have hmap : (acc ++ [(rank, p)]).map Prod.snd = acc.map Prod.snd ++ [p] := by
          simp
        rw [hmap, List.append_assoc, List.singleton_append] at hno
        exact hno

/-- Shared helper: without a repeat, the per-group indexing pass succeeds
and appends the group to the traversal. -/
theorem indexPlayersGroup_ok (rank : ℕ) :
    ∀ (grp : List ℕ) (acc : List (ℕ × ℕ)),
      (acc.map Prod.snd ++ grp).Nodup →
      ∃ acc1, indexPlayersGroup rank grp acc = .ok acc1 ∧
        acc1.map Prod.snd = acc.map Prod.snd ++ grp := by
  intro grp
  induction grp with
  | nil =>
    intro acc h
    exact ⟨acc, rfl, by rw [List.append_nil]⟩
  | cons p ps ih =>
    intro acc h
    have hp : p ∉ acc.map Prod.snd := by
      rw [List.nodup_append] at h
      intro hx
      exact h.2.2 hx (List.mem_cons_self p ps)
    have hno : ((acc ++ [(rank, p)]).map Prod.snd ++ ps).Nodup := by
      have hmap : (acc ++ [(rank, p)]).map Prod.snd = acc.map Prod.snd ++ [p] := by
        simp
      rw [hmap, List.append_assoc, List.singleton_append]
      exact h
    obtain ⟨acc1, hok, hm⟩ := ih (acc ++ [(rank, p)]) hno
    refine ⟨acc1, ?_, ?_⟩
    · simp only [indexPlayersGroup]
      rw [if_neg hp]
      exact hok
    · rw [hm]
      simp

/-- Shared helper: the whole indexing pass throws the duplicate-player
error whenever some rank-group contains an internal repeat. -/
theorem indexPlayers_error :
    ∀ (grps : List (List ℕ)) (rank : ℕ) (acc : List (ℕ × ℕ)),
      (acc.map Prod.snd).Nodup → (∃ grp ∈ grps, ¬ grp.Nodup) →
      indexPlayers grps rank acc = .error .duplicatePlayer := by
  intro grps
  induction grps with
  | nil =>
    intro rank acc h1 h2
    simp at h2
  | cons grp0 grps ih =>
    intro rank acc h1 h2
    by_cases hg : (acc.map Prod.snd ++ grp0).Nodup
    · obtain ⟨acc1, hok, hmap⟩ := indexPlayersGroup_ok rank grp0 acc hg
      simp only [indexPlayers]
      rw [hok]
      apply ih (rank + 1) acc1 (by rw [hmap]; exact hg)
      obtain ⟨grp, hmem, hbad⟩ := h2
      rcases List.mem_cons.mp hmem with heq | hmem2
      · subst heq
        exact absurd (List.Nodup.of_append_right hg) hbad
      · exact ⟨grp, hmem2, hbad⟩
    · simp only [indexPlayers]
      rw [indexPlayersGroup_error rank grp0 acc h1 hg]

/-- C10: `deriveMatches` fails with the duplicate-player error whenever any
single rank-group contains the same player twice — the duplicate check runs
against all previously traversed players regardless of group boundaries. -/
theorem C10_duplicate_in_group (rankings : List (List ℕ)) (filterBy : Option ℕ)
    (h : ∃ grp ∈ rankings, ¬ grp.Nodup) :
    deriveMatches rankings filterBy = .error .duplicatePlayer := by
  have he := indexPlayers_error rankings 0 [] (by simp) h
  unfold deriveMatches
  rw [he]

/-- C10 witness: a single rank-group holding the same player index twice
makes `deriveMatches` fail with the duplicate-player error. -/
theorem C10_duplicate_witness :
    (∃ grp ∈ [[0, 0]], ¬ List.Nodup grp) ∧
    deriveMatches [[0, 0]] none = .error .duplicatePlayer :=
  ⟨by decide, C10_duplicate_in_group [[0, 0]] none (by decide)⟩

/-- Shared helper: in the bracket-search case of the solver
(0 ≤ Δ² ≤ φ² + v, with φ² + v > 0, τ > 0), the value f(a − k·τ) is not
negative for any integer k > τ/4: the correction term k/τ dominates the
first fraction, which is bounded below by −1/4. -/
theorem glickoF_nonneg_of_far (DSq deviationSq v a tau : ℝ) (k : ℕ)
    (hD : 0 ≤ DSq) (hcase : DSq ≤ deviationSq + v) (hs : 0 < deviationSq + v)
    (htau : 0 < tau) (hk : tau / 4 < (k : ℝ)) :
    ¬ glickoF (tau * tau) DSq deviationSq v a (a - (k : ℝ) * tau) < 0.0 := by
  have hu : (0 : ℝ) < Real.exp (a - (k : ℝ) * tau) := Real.exp_pos _
  have hT : -(1 / 4 : ℝ) ≤
      Real.exp (a - (k : ℝ) * tau) *
          (DSq - deviationSq - v - Real.exp (a - (k : ℝ) * tau)) /
        Math_sq (2.0 * (deviationSq + v + Real.exp (a - (k : ℝ) * tau))) := by
    rw [Math_sq]
    have hd : (0 : ℝ) < 2.0 * (deviationSq + v + Real.exp (a - (k : ℝ) * tau)) *
        (2.0 * (deviationSq + v + Real.exp (a - (k : ℝ) * tau))) := by positivity
    rw [le_div_iff₀ hd]
    nlinarith [hu, hs, hD, hcase, mul_pos hu hs]
  have hterm : (a - (k : ℝ) * tau - a) / (tau * tau) = -((k : ℝ) / tau) := by
    field_simp
    ring
  have hk4 : (1 / 4 : ℝ) < (k : ℝ) / tau := by
    rw [lt_div_iff₀ htau]
    linarith [hk]
  simp only [glickoF]
  rw [hterm]
  push_neg
  linarith [hT, hk4]

/-- Shared helper: the bracket search exits once some reachable k has a
non-negative f-value. -/
theorem bracketSearch_exits (f : ℝ → ℝ) (a tau : ℝ) :
    ∀ (fuel k0 : ℕ), ¬ f (a - ((k0 + fuel : ℕ) : ℝ) * tau) < 0.0 →
      ∃ k, bracketSearch f a tau fuel k0 = some k := by
  intro fuel
  induction fuel with
  | zero =>
    intro k0 h
    rw [Nat.add_zero] at h
    rw [bracketSearch_zero, if_neg h]
    exact ⟨k0, rfl⟩
  | succ n ih =>
    intro k0 h
    rw [bracketSearch_succ]
    by_cases hc : f (a - (k0 : ℝ) * tau) < 0.0
    · rw [if_pos hc]
      apply ih (k0 + 1)
      have he : k0 + 1 + n = k0 + (n + 1) := by omega
      rw [he]
      exact h
    · rw [if_neg hc]
      exact ⟨k0, rfl⟩

/-- Shared helper (towards the termination guarantee): for every valid
solver input in the bracket-search case, the bracket-search loop terminates
— fuel ⌈τ/4⌉ always suffices. The Illinois iteration of Step 5 is the part
of the termination guarantee this development leaves open. -/
theorem bracketSearch_terminates (DSq deviationSq v a tau : ℝ)
    (hD : 0 ≤ DSq) (hcase : DSq ≤ deviationSq + v) (hs : 0 < deviationSq + v)
    (htau : 0 < tau) :
    ∃ k, bracketSearch (glickoF (tau * tau) DSq deviationSq v a) a tau
      (Nat.ceil (tau / 4)) 1 = some k := by
  apply bracketSearch_exits
  apply glickoF_nonneg_of_far DSq deviationSq v a tau _ hD hcase hs htau
  have h1 : tau / 4 ≤ (Nat.ceil (tau / 4) : ℝ) := Nat.le_ceil _
  have h2 : ((Nat.ceil (tau / 4) : ℕ) : ℝ) < ((1 + Nat.ceil (tau / 4) : ℕ) : ℝ) := by
    push_cast
    linarith
  linarith

end FalseSkill
